import Mathlib

/-!
Verification of the C++ statistics-table plugin adapter
(src/scip/src/objscip/objtable.h) in a shallow embedding.

The adapter class scip::ObjTable owns heap copies of a name and a
description string, stores a position and an earliest stage verbatim,
offers five lifecycle hooks with default no-op bodies and one pure
virtual output hook, and is connected to the host registry through
SCIPincludeObjTable / SCIPfindObjTable / SCIPgetObjTable.

Host-side primitives (the allocator behind SCIPduplicateMemoryArray and
SCIPfreeMemoryArray, the SCIP_CALL_ABORT macro, and the registry
implementations) are not part of the given sources; they are modelled
from the specification, as marked in their doc comments.  Memory is
modelled as an explicit heap state that records an event log, so that
allocation/free balance, exactly-once release and release order are
observable.
-/

namespace Spec2Proof

/-- Return codes of the host engine (the subset this adapter can see). -/
inductive SCIP_RETCODE
  | okay
  | nomemory
  | invaliddata
  | error

/-- Events recorded by the modelled host allocator. -/
inductive MemEvent
  | alloc (addr : Nat)
  | free (addr : Nat)
  | freeNull
  | doubleFree (addr : Nat)
  deriving DecidableEq

/-- Modelled host heap: a fresh-address counter, the live blocks (address
paired with the bytes stored there), and an event log. Address 0 plays the
role of the null pointer. -/
structure Heap where
  next : Nat
  blocks : List (Nat × List Char)
  log : List MemEvent

/-- Well-formedness of a heap: the fresh counter is positive and strictly
above every live address, and no live block sits at the null address. -/
def Heap.WF (h : Heap) : Prop :=
  0 < h.next ∧ ∀ a ∈ h.blocks.map Prod.fst, 0 < a ∧ a < h.next

instance (h : Heap) : Decidable h.WF := by
  unfold Heap.WF
  infer_instance

/-- Does the heap hold a live block at address p? -/
def hasAddr (bs : List (Nat × List Char)) (p : Nat) : Bool :=
  bs.any (fun b => b.1 == p)

/-- Bytes stored at a live address, if any. -/
def Heap.lookup (h : Heap) (p : Nat) : Option (List Char) :=
  (h.blocks.find? (fun b => b.1 == p)).map Prod.snd

/-- Modelled from the spec: the host allocator primitive behind the
SCIPduplicateMemoryArray macro, whose implementation is not among the
sources.  On success it stores a copy of the source bytes in a fresh
block and returns its address; on failure it returns the no-memory code
and leaves the heap unchanged. The success/failure outcome is supplied
as an oracle argument ok. -/
def duplicateMemoryArray (h : Heap) (src : List Char) (ok : Bool) :
    SCIP_RETCODE × Nat × Heap :=
  if ok then
    (SCIP_RETCODE.okay, h.next,
      { next := h.next + 1
        blocks := (h.next, src) :: h.blocks
        log := h.log ++ [MemEvent.alloc h.next] })
  else
    (SCIP_RETCODE.nomemory, 0, h)

/-- Modelled from the spec: the host primitive behind the
SCIPfreeMemoryArray macro, whose implementation is not among the
sources.  It releases the block at the given address; releasing the null
pointer releases nothing (the spec: a partially constructed object must
release whatever was actually allocated, and only that), and releasing a
non-live address is recorded as a double free. -/
def freeMemoryArray (h : Heap) (p : Nat) : Heap :=
  if p = 0 then
    { h with log := h.log ++ [MemEvent.freeNull] }
  else if hasAddr h.blocks p then
    { h with
      blocks := h.blocks.filter (fun b => !(b.1 == p))
      log := h.log ++ [MemEvent.free p] }
  else
    { h with log := h.log ++ [MemEvent.doubleFree p] }

/-- Number of allocations recorded in the log. -/
def Heap.allocCount (h : Heap) : Nat :=
  h.log.countP (fun e => match e with | MemEvent.alloc _ => true | _ => false)

/-- Number of successful releases recorded in the log. -/
def Heap.freeCount (h : Heap) : Nat :=
  h.log.countP (fun e => match e with | MemEvent.free _ => true | _ => false)

/-- Number of double frees recorded in the log. -/
def Heap.badFreeCount (h : Heap) : Nat :=
  h.log.countP (fun e => match e with | MemEvent.doubleFree _ => true | _ => false)

/-- SCIP_STAGE: modelled as the underlying integer of the C enum; the
adapter never inspects it, so no range restriction is imposed. -/
abbrev SCIP_STAGE := Nat

/-- The adapter object scip::ObjTable: the SCIP handle, the two string
pointers (0 when null, as the constructor initialisers write), the
position and the earliest stage.  Pointers are heap addresses. -/
structure ObjTable where
  scip_ : Nat
  scip_name_ : Nat
  scip_desc_ : Nat
  scip_position_ : Int
  scip_earlieststage_ : SCIP_STAGE

/-- Outcome of running the ObjTable constructor.  SCIP_CALL_ABORT
(modelled from the spec: its definition is not among the sources) aborts
the whole host operation when the wrapped call does not return okay, so
a failed string duplication yields abortedProgram, carrying the partial
object and heap at the abort point. -/
inductive ConstructResult
  | ok (obj : ObjTable) (h : Heap)
  | abortedProgram (obj : ObjTable) (h : Heap)

/-- The ObjTable constructor (objtable.h lines 64-80): member initialisers
store scip, null name, null desc, position and earliest stage verbatim;
then the name and the description are duplicated through
SCIPduplicateMemoryArray under SCIP_CALL_ABORT.  The caller strings are
passed as heap addresses namePtr and descPtr; the two oracle bits decide
the outcome of the two allocations. -/
def ObjTable.construct (h : Heap) (scip namePtr descPtr : Nat) (position : Int)
    (earlieststage : SCIP_STAGE) (ok1 ok2 : Bool) : ConstructResult :=
  let obj0 : ObjTable := ⟨scip, 0, 0, position, earlieststage⟩
  let nameSrc := (h.lookup namePtr).getD []
  match duplicateMemoryArray h nameSrc ok1 with
  | (SCIP_RETCODE.okay, a1, h1) =>
    let obj1 := { obj0 with scip_name_ := a1 }
    let descSrc := (h1.lookup descPtr).getD []
    match duplicateMemoryArray h1 descSrc ok2 with
    | (SCIP_RETCODE.okay, a2, h2) =>
      ConstructResult.ok { obj1 with scip_desc_ := a2 } h2
    | (_, _, h2) => ConstructResult.abortedProgram obj1 h2
  | (_, _, h1) => ConstructResult.abortedProgram obj0 h1

/-- The ObjTable destructor (objtable.h lines 83-89): frees the name
copy, then the description copy, each through SCIPfreeMemoryArray, which
also nulls the freed member. -/
def ObjTable.destruct (obj : ObjTable) (h : Heap) : ObjTable × Heap :=
  let h1 := freeMemoryArray h obj.scip_name_
  let h2 := freeMemoryArray h1 obj.scip_desc_
  ({ obj with scip_name_ := 0, scip_desc_ := 0 }, h2)

/-- Signature shared by the lifecycle hooks (objtable.h lines 95-140):
each receives the object, the SCIP handle and the registry-entry handle,
and returns a result code; the object and the external heap are carried
explicitly so that side effects are observable. -/
abbrev HookFn := ObjTable → Nat → Nat → Heap → SCIP_RETCODE × ObjTable × Heap

/-- Default hook scip_free (objtable.h lines 95-98): returns SCIP_OKAY. -/
def ObjTable.scip_free : HookFn :=
  fun self _scip _table h => (SCIP_RETCODE.okay, self, h)

/-- Default hook scip_init (objtable.h lines 104-107): returns SCIP_OKAY. -/
def ObjTable.scip_init : HookFn :=
  fun self _scip _table h => (SCIP_RETCODE.okay, self, h)

/-- Default hook scip_exit (objtable.h lines 113-116): returns SCIP_OKAY. -/
def ObjTable.scip_exit : HookFn :=
  fun self _scip _table h => (SCIP_RETCODE.okay, self, h)

/-- Default hook scip_initsol (objtable.h lines 122-125): returns SCIP_OKAY. -/
def ObjTable.scip_initsol : HookFn :=
  fun self _scip _table h => (SCIP_RETCODE.okay, self, h)

/-- Default hook scip_exitsol (objtable.h lines 131-134): returns SCIP_OKAY. -/
def ObjTable.scip_exitsol : HookFn :=
  fun self _scip _table h => (SCIP_RETCODE.okay, self, h)

/-- The six hook slots of the adapter. -/
inductive HookName
  | free
  | init
  | exit
  | initsol
  | exitsol
  | output

/-- Default implementation available for each hook slot, embedding the
virtual/pure-virtual distinction of objtable.h: the five lifecycle hooks
carry the no-op default bodies above, while scip_output is declared
pure virtual (objtable.h line 140) and hence has no default. -/
def defaultHook : HookName → Option HookFn
  | HookName.free => some ObjTable.scip_free
  | HookName.init => some ObjTable.scip_init
  | HookName.exit => some ObjTable.scip_exit
  | HookName.initsol => some ObjTable.scip_initsol
  | HookName.exitsol => some ObjTable.scip_exitsol
  | HookName.output => none

/-- C++ virtual dispatch: a user override replaces the default; a slot
without an override falls back to the default, when one exists. -/
def resolveHook (user : HookName → Option HookFn) (n : HookName) : Option HookFn :=
  match user n with
  | some f => some f
  | none => defaultHook n

/-- A concrete subclass of ObjTable can be instantiated exactly when every
hook slot resolves to an implementation (C++ forbids instantiating a
class with an unimplemented pure virtual). -/
def instantiable (user : HookName → Option HookFn) : Prop :=
  ∀ n, (resolveHook user n).isSome

/-- A registry entry of the host plugin table: the registered name, the
opaque user-data pointer (holding the adapter object when set by this
bridge) and the delete-on-free ownership flag. -/
structure TableEntry where
  name : List Char
  tabledata : Option ObjTable
  deleteobject : Bool

/-- The host plugin registry: the list of registered entries. -/
structure Registry where
  entries : List TableEntry

/-- Modelled from the spec: SCIPincludeObjTable, whose implementation is
not among the sources.  It fails with a collision error when an entry
with the object name is already registered, fails with the no-memory
code when the registration storage cannot be allocated (oracle bit
allocOk), and otherwise appends an entry wrapping the object as opaque
user data together with the deleteobject flag.  The object name is read
from the heap through its scip_name_ pointer. -/
def SCIPincludeObjTable (h : Heap) (reg : Registry) (objtable : ObjTable)
    (deleteobject : Bool) (allocOk : Bool) : SCIP_RETCODE × Registry :=
  let nm := (h.lookup objtable.scip_name_).getD []
  if reg.entries.any (fun e => e.name == nm) then
    (SCIP_RETCODE.invaliddata, reg)
  else if allocOk then
    (SCIP_RETCODE.okay, ⟨reg.entries ++ [⟨nm, some objtable, deleteobject⟩]⟩)
  else
    (SCIP_RETCODE.nomemory, reg)

/-- Modelled from the spec: SCIPfindObjTable, whose implementation is not
among the sources.  It looks the entry up by exact name match and returns
the adapter object stored in its user data, or none when there is no such
entry or its user data was never set by this bridge. -/
def SCIPfindObjTable (reg : Registry) (nm : List Char) : Option ObjTable :=
  (reg.entries.find? (fun e => e.name == nm)).bind TableEntry.tabledata

/-- Modelled from the spec: SCIPgetObjTable, whose implementation is not
among the sources.  Given a registry entry handle it reads back the
opaque user-data pointer; none when the user data was not set by this
bridge. -/
def SCIPgetObjTable (e : TableEntry) : Option ObjTable :=
  e.tabledata

/-! Helper lemmas about the modelled heap. -/

lemma filter_ne_of_forall_lt (bs : List (Nat × List Char)) (p : Nat)
    (hlt : ∀ a ∈ bs.map Prod.fst, a < p) :
    bs.filter (fun b => !(b.1 == p)) = bs := by
  induction bs with
  | nil => rfl
  | cons b bs ih =>
    have hb : b.1 < p := hlt b.1 (by simp)
    have hbne : (b.1 == p) = false := by
      simp [Nat.ne_of_lt hb]
    simp only [List.filter_cons, hbne, Bool.not_false, if_pos]
    exact congrArg (b :: ·) (ih (fun a ha => hlt a (by simp [ha])))

lemma lookup_mem_addr (h : Heap) (p : Nat) (s : List Char)
    (hl : h.lookup p = some s) : p ∈ h.blocks.map Prod.fst := by
  unfold Heap.lookup at hl
  cases hfind : h.blocks.find? (fun b => b.1 == p) with
  | none => rw [hfind] at hl; simp at hl
  | some b =>
    have hmem : b ∈ h.blocks := List.mem_of_find?_eq_some hfind
    have hbp := List.find?_some hfind
    have hb1 : b.1 = p := by simpa using hbp
    exact hb1 ▸ List.mem_map_of_mem Prod.fst hmem

/-- Reduction of a fully successful run of the constructor. -/
lemma construct_true_true (h0 : Heap) (scip np dp : Nat) (pos : Int)
    (st : SCIP_STAGE) :
    ObjTable.construct h0 scip np dp pos st true true =
      ConstructResult.ok
        ⟨scip, h0.next, h0.next + 1, pos, st⟩
        ⟨h0.next + 2,
         (h0.next + 1,
           (Heap.lookup
              ⟨h0.next + 1, (h0.next, (h0.lookup np).getD []) :: h0.blocks,
               h0.log ++ [MemEvent.alloc h0.next]⟩ dp).getD []) ::
           (h0.next, (h0.lookup np).getD []) :: h0.blocks,
         (h0.log ++ [MemEvent.alloc h0.next]) ++
           [MemEvent.alloc (h0.next + 1)]⟩ := rfl

/-- Reduction of a run of the constructor whose second allocation fails. -/
lemma construct_true_false (h0 : Heap) (scip np dp : Nat) (pos : Int)
    (st : SCIP_STAGE) :
    ObjTable.construct h0 scip np dp pos st true false =
      ConstructResult.abortedProgram
        ⟨scip, h0.next, 0, pos, st⟩
        ⟨h0.next + 1, (h0.next, (h0.lookup np).getD []) :: h0.blocks,
         h0.log ++ [MemEvent.alloc h0.next]⟩ := rfl

/-- Reduction of a run of the constructor whose first allocation fails. -/
lemma construct_false (h0 : Heap) (scip np dp : Nat) (pos : Int)
    (st : SCIP_STAGE) (ok2 : Bool) :
    ObjTable.construct h0 scip np dp pos st false ok2 =
      ConstructResult.abortedProgram ⟨scip, 0, 0, pos, st⟩ h0 := rfl

/-- Releasing a live non-null address takes the live branch. -/
lemma freeMemoryArray_eq_of_live (h : Heap) (p : Nat) (hp : p ≠ 0)
    (hlive : hasAddr h.blocks p = true) :
    freeMemoryArray h p =
      { h with
        blocks := h.blocks.filter (fun b => !(b.1 == p))
        log := h.log ++ [MemEvent.free p] } := by
  unfold freeMemoryArray
  rw [if_neg hp, if_pos hlive]

/-- Releasing the null pointer only logs the no-op. -/
lemma freeMemoryArray_null (h : Heap) :
    freeMemoryArray h 0 = { h with log := h.log ++ [MemEvent.freeNull] } := by
  unfold freeMemoryArray
  rw [if_pos rfl]

/-- Releasing one fresh block on top of a well-formed tail removes
exactly that block. -/
lemma free_fresh_head (h0 : Heap) (hwf : h0.WF) (s : List Char)
    (nx : Nat) (L : List MemEvent) :
    freeMemoryArray ⟨nx, (h0.next, s) :: h0.blocks, L⟩ h0.next =
      ⟨nx, h0.blocks, L ++ [MemEvent.free h0.next]⟩ := by
  obtain ⟨hpos, hbnd⟩ := hwf
  have hlt : ∀ a ∈ h0.blocks.map Prod.fst, a < h0.next :=
    fun a ha => (hbnd a ha).2
  have hne0 : h0.next ≠ 0 := Nat.pos_iff_ne_zero.mp hpos
  rw [freeMemoryArray_eq_of_live _ _ hne0 (by simp [hasAddr])]
  simp [List.filter_cons, filter_ne_of_forall_lt h0.blocks h0.next hlt]

/-- Releasing the two fresh blocks on top of a well-formed heap, lower
address first, removes exactly those two blocks and logs the two frees
in that order. -/
lemma free_fresh_pair (h0 : Heap) (hwf : h0.WF) (s d : List Char)
    (L : List MemEvent) :
    freeMemoryArray
        (freeMemoryArray
          ⟨h0.next + 2, (h0.next + 1, d) :: (h0.next, s) :: h0.blocks, L⟩
          h0.next)
        (h0.next + 1) =
      ⟨h0.next + 2, h0.blocks,
       L ++ [MemEvent.free h0.next, MemEvent.free (h0.next + 1)]⟩ := by
  obtain ⟨hpos, hbnd⟩ := hwf
  have hlt : ∀ a ∈ h0.blocks.map Prod.fst, a < h0.next :=
    fun a ha => (hbnd a ha).2
  have hlt1 : ∀ a ∈ h0.blocks.map Prod.fst, a < h0.next + 1 :=
    fun a ha => Nat.lt_succ_of_lt (hlt a ha)
  have hne0 : h0.next ≠ 0 := Nat.pos_iff_ne_zero.mp hpos
  have hhead : ((h0.next + 1 : Nat) == h0.next) = false := by
    simp
  have step1 :
      freeMemoryArray
          ⟨h0.next + 2, (h0.next + 1, d) :: (h0.next, s) :: h0.blocks, L⟩
          h0.next =
        ⟨h0.next + 2, (h0.next + 1, d) :: h0.blocks,
         L ++ [MemEvent.free h0.next]⟩ := by
    rw [freeMemoryArray_eq_of_live _ _ hne0 (by simp [hasAddr])]
    simp [List.filter_cons, hhead,
      filter_ne_of_forall_lt h0.blocks h0.next hlt]
  rw [step1]
  have wf1 : Heap.WF ⟨h0.next + 1, h0.blocks, L⟩ := by
    refine ⟨Nat.succ_pos _, fun a ha => ?_⟩
    exact ⟨(hbnd a ha).1, Nat.lt_succ_of_lt (hbnd a ha).2⟩
  have := free_fresh_head ⟨h0.next + 1, h0.blocks, L⟩ wf1 d (h0.next + 2)
    (L ++ [MemEvent.free h0.next])
  simpa [List.append_assoc] using this

/-- C6: each of the five default hook implementations (scip_free,
scip_init, scip_exit, scip_initsol, scip_exitsol), invoked with any
arguments and any object state, returns SCIP_OKAY and performs no
observable side effect: the object and the external state come back
unchanged. -/
theorem default_hooks_succeed_without_effect :
    ∀ (obj : ObjTable) (scip tbl : Nat) (h : Heap),
      ObjTable.scip_free obj scip tbl h = (SCIP_RETCODE.okay, obj, h) ∧
      ObjTable.scip_init obj scip tbl h = (SCIP_RETCODE.okay, obj, h) ∧
      ObjTable.scip_exit obj scip tbl h = (SCIP_RETCODE.okay, obj, h) ∧
      ObjTable.scip_initsol obj scip tbl h = (SCIP_RETCODE.okay, obj, h) ∧
      ObjTable.scip_exitsol obj scip tbl h = (SCIP_RETCODE.okay, obj, h) := by
  intro obj scip tbl h
  exact ⟨rfl, rfl, rfl, rfl, rfl⟩

/-- C5: the output hook is mandatory while the other five have defaults:
a hook assignment is instantiable exactly when it supplies an output
implementation, scip_output has no default, every other slot does, and
the bound output implementation is the supplied one. -/
theorem output_hook_mandatory :
    ∀ user : HookName → Option HookFn,
      (instantiable user ↔ (user HookName.output).isSome) ∧
      defaultHook HookName.output = none ∧
      (∀ n, n ≠ HookName.output → (defaultHook n).isSome) ∧
      (∀ f, user HookName.output = some f →
        resolveHook user HookName.output = some f) := by
  intro user
  refine ⟨⟨fun hinst => ?_, fun hout => ?_⟩, rfl, ?_, ?_⟩
  · have h := hinst HookName.output
    unfold resolveHook at h
    cases hu : user HookName.output with
    | some f => simp
    | none => rw [hu] at h; simp [defaultHook] at h
  · intro n
    unfold resolveHook
    cases hu : user n with
    | some f => simp
    | none =>
      cases n with
      | output => rw [hu] at hout; simp at hout
      | free => simp [defaultHook]
      | init => simp [defaultHook]
      | exit => simp [defaultHook]
      | initsol => simp [defaultHook]
      | exitsol => simp [defaultHook]
  · intro n hn
    cases n with
    | output => exact absurd rfl hn
    | free => simp [defaultHook]
    | init => simp [defaultHook]
    | exit => simp [defaultHook]
    | initsol => simp [defaultHook]
    | exitsol => simp [defaultHook]
  · intro f hf
    unfold resolveHook
    rw [hf]

/-- An example hook assignment supplying only an output implementation. -/
def exampleUser : HookName → Option HookFn :=
  fun n =>
    match n with
    | HookName.output => some (fun self _ _ h => (SCIP_RETCODE.okay, self, h))
    | _ => none

/-- Witness for C5 at the concrete assignment exampleUser. -/
theorem output_hook_mandatory_witness : instantiable exampleUser :=
  (output_hook_mandatory exampleUser).1.mpr (by simp [exampleUser])

/-- C1: for every successfully constructed adapter object, running the
destructor releases the heap copies of the name and the description
exactly once each: allocation and free counts balance (two allocations,
two frees), each of the two addresses is freed exactly once more than
before, no double free is recorded, and the live blocks return to the
pre-construction state. -/
theorem construct_destruct_balances (h0 : Heap) (hwf : h0.WF)
    (scip np dp : Nat) (pos : Int) (st : SCIP_STAGE)
    (obj : ObjTable) (h1 : Heap)
    (hok : ObjTable.construct h0 scip np dp pos st true true =
      ConstructResult.ok obj h1) :
    ((obj.destruct h1).2).allocCount = h0.allocCount + 2 ∧
    ((obj.destruct h1).2).freeCount = h0.freeCount + 2 ∧
    ((obj.destruct h1).2).log.count (MemEvent.free obj.scip_name_) =
      h0.log.count (MemEvent.free obj.scip_name_) + 1 ∧
    ((obj.destruct h1).2).log.count (MemEvent.free obj.scip_desc_) =
      h0.log.count (MemEvent.free obj.scip_desc_) + 1 ∧
    ((obj.destruct h1).2).badFreeCount = h0.badFreeCount ∧
    ((obj.destruct h1).2).blocks = h0.blocks := by
  rw [construct_true_true] at hok
  injection hok with hobj hh1
  subst hobj
  subst hh1
  unfold ObjTable.destruct
  dsimp only
  rw [free_fresh_pair h0 hwf]
  refine ⟨?_, ?_, ?_, ?_, ?_, rfl⟩
  · simp [Heap.allocCount, List.countP_append]
  · simp [Heap.freeCount, List.countP_append]
  · simp [Heap.allocCount, Heap.freeCount, List.count_append,
      List.count_cons, Nat.succ_ne_self]
  · simp [List.count_append, List.count_cons, Nat.succ_ne_self]
  · simp [Heap.badFreeCount, List.countP_append]

/-- Witness for C1 at a concrete run from an empty well-formed heap. -/
theorem construct_destruct_balances_witness :
    ((ObjTable.destruct ⟨0, 1, 2, -7, 3⟩
        ⟨3, [(2, []), (1, [])],
         [MemEvent.alloc 1, MemEvent.alloc 2]⟩).2).allocCount =
      (⟨1, [], []⟩ : Heap).allocCount + 2 ∧
    ((ObjTable.destruct ⟨0, 1, 2, -7, 3⟩
        ⟨3, [(2, []), (1, [])],
         [MemEvent.alloc 1, MemEvent.alloc 2]⟩).2).freeCount =
      (⟨1, [], []⟩ : Heap).freeCount + 2 ∧
    ((ObjTable.destruct ⟨0, 1, 2, -7, 3⟩
        ⟨3, [(2, []), (1, [])],
         [MemEvent.alloc 1, MemEvent.alloc 2]⟩).2).log.count
        (MemEvent.free (ObjTable.scip_name_ ⟨0, 1, 2, -7, 3⟩)) =
      (⟨1, [], []⟩ : Heap).log.count
        (MemEvent.free (ObjTable.scip_name_ ⟨0, 1, 2, -7, 3⟩)) + 1 ∧
    ((ObjTable.destruct ⟨0, 1, 2, -7, 3⟩
        ⟨3, [(2, []), (1, [])],
         [MemEvent.alloc 1, MemEvent.alloc 2]⟩).2).log.count
        (MemEvent.free (ObjTable.scip_desc_ ⟨0, 1, 2, -7, 3⟩)) =
      (⟨1, [], []⟩ : Heap).log.count
        (MemEvent.free (ObjTable.scip_desc_ ⟨0, 1, 2, -7, 3⟩)) + 1 ∧
    ((ObjTable.destruct ⟨0, 1, 2, -7, 3⟩
        ⟨3, [(2, []), (1, [])],
         [MemEvent.alloc 1, MemEvent.alloc 2]⟩).2).badFreeCount =
      (⟨1, [], []⟩ : Heap).badFreeCount ∧
    ((ObjTable.destruct ⟨0, 1, 2, -7, 3⟩
        ⟨3, [(2, []), (1, [])],
         [MemEvent.alloc 1, MemEvent.alloc 2]⟩).2).blocks =
      (⟨1, [], []⟩ : Heap).blocks :=
  construct_destruct_balances ⟨1, [], []⟩ (by decide) 0 5 6 (-7) 3
    ⟨0, 1, 2, -7, 3⟩
    ⟨3, [(2, []), (1, [])], [MemEvent.alloc 1, MemEvent.alloc 2]⟩ rfl

/-- C10: the destructor releases the two string copies in one fixed
order on every run: the name copy first, then the description copy. -/
theorem destructor_frees_name_then_desc (h0 : Heap) (hwf : h0.WF)
    (scip np dp : Nat) (pos : Int) (st : SCIP_STAGE)
    (obj : ObjTable) (h1 : Heap)
    (hok : ObjTable.construct h0 scip np dp pos st true true =
      ConstructResult.ok obj h1) :
    ((obj.destruct h1).2).log =
      h1.log ++
        [MemEvent.free obj.scip_name_, MemEvent.free obj.scip_desc_] := by
  rw [construct_true_true] at hok
  injection hok with hobj hh1
  subst hobj
  subst hh1
  unfold ObjTable.destruct
  dsimp only
  rw [free_fresh_pair h0 hwf]

/-- Witness for C10 at a concrete run from an empty well-formed heap. -/
theorem destructor_frees_name_then_desc_witness :
    ((ObjTable.destruct ⟨0, 1, 2, -7, 3⟩
        ⟨3, [(2, []), (1, [])],
         [MemEvent.alloc 1, MemEvent.alloc 2]⟩).2).log =
      (⟨3, [(2, []), (1, [])],
        [MemEvent.alloc 1, MemEvent.alloc 2]⟩ : Heap).log ++
        [MemEvent.free (ObjTable.scip_name_ ⟨0, 1, 2, -7, 3⟩),
         MemEvent.free (ObjTable.scip_desc_ ⟨0, 1, 2, -7, 3⟩)] :=
  destructor_frees_name_then_desc ⟨1, [], []⟩ (by decide) 0 5 6 (-7) 3
    ⟨0, 1, 2, -7, 3⟩
    ⟨3, [(2, []), (1, [])], [MemEvent.alloc 1, MemEvent.alloc 2]⟩ rfl

/-- C3: for a partially constructed adapter object (name copy succeeded,
description copy failed, so the constructor aborted), running the
destructor still releases exactly the allocation that succeeded and only
that: the name block is freed, the null description pointer free is a
no-op, no double free is recorded, and the live blocks return to the
pre-construction state. -/
theorem destruct_after_abort_releases_only_allocated (h0 : Heap) (hwf : h0.WF)
    (scip np dp : Nat) (pos : Int) (st : SCIP_STAGE)
    (obj : ObjTable) (h1 : Heap)
    (hab : ObjTable.construct h0 scip np dp pos st true false =
      ConstructResult.abortedProgram obj h1) :
    obj.scip_desc_ = 0 ∧
    ((obj.destruct h1).2).log =
      h1.log ++ [MemEvent.free obj.scip_name_, MemEvent.freeNull] ∧
    ((obj.destruct h1).2).blocks = h0.blocks ∧
    ((obj.destruct h1).2).allocCount = h0.allocCount + 1 ∧
    ((obj.destruct h1).2).freeCount = h0.freeCount + 1 ∧
    ((obj.destruct h1).2).badFreeCount = h0.badFreeCount := by
  rw [construct_true_false] at hab
  injection hab with hobj hh1
  subst hobj
  subst hh1
  unfold ObjTable.destruct
  dsimp only
  rw [free_fresh_head h0 hwf, freeMemoryArray_null]
  refine ⟨rfl, ?_, rfl, ?_, ?_, ?_⟩
  · simp [List.append_assoc]
  · simp [Heap.allocCount, List.countP_append]
  · simp [Heap.freeCount, List.countP_append]
  · simp [Heap.badFreeCount, List.countP_append]

/-- Witness for C3 at a concrete partially constructed object. -/
theorem destruct_after_abort_releases_only_allocated_witness :
    (ObjTable.scip_desc_ ⟨0, 1, 0, -7, 3⟩ = 0) ∧
    ((ObjTable.destruct ⟨0, 1, 0, -7, 3⟩
        ⟨2, [(1, [])], [MemEvent.alloc 1]⟩).2).log =
      (⟨2, [(1, [])], [MemEvent.alloc 1]⟩ : Heap).log ++
        [MemEvent.free (ObjTable.scip_name_ ⟨0, 1, 0, -7, 3⟩),
         MemEvent.freeNull] ∧
    ((ObjTable.destruct ⟨0, 1, 0, -7, 3⟩
        ⟨2, [(1, [])], [MemEvent.alloc 1]⟩).2).blocks =
      (⟨1, [], []⟩ : Heap).blocks ∧
    ((ObjTable.destruct ⟨0, 1, 0, -7, 3⟩
        ⟨2, [(1, [])], [MemEvent.alloc 1]⟩).2).allocCount =
      (⟨1, [], []⟩ : Heap).allocCount + 1 ∧
    ((ObjTable.destruct ⟨0, 1, 0, -7, 3⟩
        ⟨2, [(1, [])], [MemEvent.alloc 1]⟩).2).freeCount =
      (⟨1, [], []⟩ : Heap).freeCount + 1 ∧
    ((ObjTable.destruct ⟨0, 1, 0, -7, 3⟩
        ⟨2, [(1, [])], [MemEvent.alloc 1]⟩).2).badFreeCount =
      (⟨1, [], []⟩ : Heap).badFreeCount :=
  destruct_after_abort_releases_only_allocated ⟨1, [], []⟩ (by decide)
    0 5 6 (-7) 3 ⟨0, 1, 0, -7, 3⟩ ⟨2, [(1, [])], [MemEvent.alloc 1]⟩ rfl

/-- C2: when either string copy cannot be allocated, the constructor
aborts the whole host operation (the SCIP_CALL_ABORT path), and a
successful construction never carries a null name or description
pointer. -/
theorem construct_aborts_on_allocation_failure (h0 : Heap) (hwf : h0.WF)
    (scip np dp : Nat) (pos : Int) (st : SCIP_STAGE) (ok1 ok2 : Bool) :
    ((ok1 = false ∨ ok2 = false) →
      ∃ p hh, ObjTable.construct h0 scip np dp pos st ok1 ok2 =
        ConstructResult.abortedProgram p hh) ∧
    (∀ obj h1, ObjTable.construct h0 scip np dp pos st ok1 ok2 =
        ConstructResult.ok obj h1 →
      obj.scip_name_ ≠ 0 ∧ obj.scip_desc_ ≠ 0) := by
  constructor
  · intro hfail
    cases ok1 with
    | false => exact ⟨_, _, construct_false h0 scip np dp pos st ok2⟩
    | true =>
      cases ok2 with
      | false => exact ⟨_, _, construct_true_false h0 scip np dp pos st⟩
      | true => rcases hfail with h | h <;> simp at h
  · intro obj h1 hok
    cases ok1 with
    | false =>
      rw [construct_false] at hok
      simp at hok
    | true =>
      cases ok2 with
      | false =>
        rw [construct_true_false] at hok
        simp at hok
      | true =>
        rw [construct_true_true] at hok
        injection hok with hobj hh1
        subst hobj
        exact ⟨Nat.pos_iff_ne_zero.mp hwf.1, Nat.succ_ne_zero h0.next⟩

/-- Witness for C2: a concrete run whose first allocation fails aborts. -/
theorem construct_aborts_on_allocation_failure_witness :
    ∃ p hh, ObjTable.construct ⟨1, [], []⟩ 0 5 6 (-7) 3 false true =
      ConstructResult.abortedProgram p hh :=
  (construct_aborts_on_allocation_failure ⟨1, [], []⟩ (by decide)
    0 5 6 (-7) 3 false true).1 (Or.inl rfl)

/-- C4: a successfully constructed adapter object holds non-null name
and description pointers whose heap contents equal the caller strings,
and those pointers are fresh blocks owned exclusively by the object:
distinct from the caller pointers, from each other, and from every block
live before construction. -/
theorem construct_copies_and_owns_strings (h0 : Heap) (hwf : h0.WF)
    (scip np dp : Nat) (nameS descS : List Char)
    (hnp : h0.lookup np = some nameS) (hdp : h0.lookup dp = some descS)
    (pos : Int) (st : SCIP_STAGE) (obj : ObjTable) (h1 : Heap)
    (hok : ObjTable.construct h0 scip np dp pos st true true =
      ConstructResult.ok obj h1) :
    obj.scip_name_ ≠ 0 ∧ obj.scip_desc_ ≠ 0 ∧
    h1.lookup obj.scip_name_ = some nameS ∧
    h1.lookup obj.scip_desc_ = some descS ∧
    obj.scip_name_ ≠ np ∧ obj.scip_desc_ ≠ dp ∧
    obj.scip_name_ ≠ obj.scip_desc_ ∧
    obj.scip_name_ ∉ h0.blocks.map Prod.fst ∧
    obj.scip_desc_ ∉ h0.blocks.map Prod.fst := by
  have hnplt : np < h0.next := (hwf.2 np (lookup_mem_addr h0 np nameS hnp)).2
  have hdplt : dp < h0.next := (hwf.2 dp (lookup_mem_addr h0 dp descS hdp)).2
  rw [construct_true_true] at hok
  injection hok with hobj hh1
  subst hobj
  subst hh1
  have hS : (h0.lookup np).getD [] = nameS := by rw [hnp]; rfl
  have hD :
      Heap.lookup
          ⟨h0.next + 1, (h0.next, (h0.lookup np).getD []) :: h0.blocks,
           h0.log ++ [MemEvent.alloc h0.next]⟩ dp = some descS := by
    show (List.find? (fun b => b.1 == dp)
        ((h0.next, (h0.lookup np).getD []) :: h0.blocks)).map Prod.snd =
      some descS
    rw [List.find?_cons_of_neg]
    · exact hdp
    · simp only [beq_iff_eq]
      exact Nat.ne_of_gt hdplt
  refine ⟨Nat.pos_iff_ne_zero.mp hwf.1, Nat.succ_ne_zero h0.next,
    ?_, ?_, Nat.ne_of_gt hnplt,
    Nat.ne_of_gt (Nat.lt_succ_of_lt hdplt), ?_, ?_, ?_⟩
  · show (List.find? (fun b => b.1 == h0.next) _).map Prod.snd = some nameS
    rw [List.find?_cons_of_neg, List.find?_cons_of_pos]
    · simp [hS]
    · simp
    · simp
  · show (List.find? (fun b => b.1 == h0.next + 1) _).map Prod.snd =
      some descS
    rw [List.find?_cons_of_pos]
    · simp [hD]
    · simp
  · show h0.next ≠ h0.next + 1
    omega
  · intro hmem
    have h2 : h0.next < h0.next := (hwf.2 _ hmem).2
    omega
  · intro hmem
    have h2 : h0.next + 1 < h0.next := (hwf.2 _ hmem).2
    omega

/-- Witness for C4 at a concrete heap holding two caller strings. -/
theorem construct_copies_and_owns_strings_witness :
    (ObjTable.scip_name_ ⟨0, 3, 4, -7, 9⟩ ≠ 0) ∧
    (ObjTable.scip_desc_ ⟨0, 3, 4, -7, 9⟩ ≠ 0) ∧
    Heap.lookup
        ⟨5, [(4, ['d']), (3, ['n']), (1, ['n']), (2, ['d'])],
         [MemEvent.alloc 3, MemEvent.alloc 4]⟩
        (ObjTable.scip_name_ ⟨0, 3, 4, -7, 9⟩) = some ['n'] ∧
    Heap.lookup
        ⟨5, [(4, ['d']), (3, ['n']), (1, ['n']), (2, ['d'])],
         [MemEvent.alloc 3, MemEvent.alloc 4]⟩
        (ObjTable.scip_desc_ ⟨0, 3, 4, -7, 9⟩) = some ['d'] ∧
    (ObjTable.scip_name_ ⟨0, 3, 4, -7, 9⟩ ≠ 1) ∧
    (ObjTable.scip_desc_ ⟨0, 3, 4, -7, 9⟩ ≠ 2) ∧
    (ObjTable.scip_name_ ⟨0, 3, 4, -7, 9⟩ ≠
      ObjTable.scip_desc_ ⟨0, 3, 4, -7, 9⟩) ∧
    (ObjTable.scip_name_ ⟨0, 3, 4, -7, 9⟩ ∉
      (Heap.blocks ⟨3, [(1, ['n']), (2, ['d'])], []⟩).map Prod.fst) ∧
    (ObjTable.scip_desc_ ⟨0, 3, 4, -7, 9⟩ ∉
      (Heap.blocks ⟨3, [(1, ['n']), (2, ['d'])], []⟩).map Prod.fst) :=
  construct_copies_and_owns_strings ⟨3, [(1, ['n']), (2, ['d'])], []⟩
    (by decide) 0 1 2 ['n'] ['d'] rfl rfl (-7) 9 ⟨0, 3, 4, -7, 9⟩
    ⟨5, [(4, ['d']), (3, ['n']), (1, ['n']), (2, ['d'])],
     [MemEvent.alloc 3, MemEvent.alloc 4]⟩ rfl

/-- C7: the position and earliest-stage arguments are stored verbatim,
with no validation, on every constructor outcome, and neither the
destructor nor any default hook ever changes them afterwards. -/
theorem position_stage_verbatim_and_frozen (h0 : Heap)
    (scip np dp : Nat) (pos : Int) (st : SCIP_STAGE) (ok1 ok2 : Bool) :
    (∀ obj h1, ObjTable.construct h0 scip np dp pos st ok1 ok2 =
        ConstructResult.ok obj h1 →
      obj.scip_position_ = pos ∧ obj.scip_earlieststage_ = st) ∧
    (∀ obj h1, ObjTable.construct h0 scip np dp pos st ok1 ok2 =
        ConstructResult.abortedProgram obj h1 →
      obj.scip_position_ = pos ∧ obj.scip_earlieststage_ = st) ∧
    (∀ (obj : ObjTable) (h : Heap),
      ((obj.destruct h).1).scip_position_ = obj.scip_position_ ∧
      ((obj.destruct h).1).scip_earlieststage_ = obj.scip_earlieststage_) ∧
    (∀ (obj : ObjTable) (s t : Nat) (h : Heap),
      (ObjTable.scip_free obj s t h).2.1 = obj ∧
      (ObjTable.scip_init obj s t h).2.1 = obj ∧
      (ObjTable.scip_exit obj s t h).2.1 = obj ∧
      (ObjTable.scip_initsol obj s t h).2.1 = obj ∧
      (ObjTable.scip_exitsol obj s t h).2.1 = obj) := by
  refine ⟨?_, ?_, fun obj h => ⟨rfl, rfl⟩,
    fun obj s t h => ⟨rfl, rfl, rfl, rfl, rfl⟩⟩
  · intro obj h1 hok
    cases ok1 with
    | false => rw [construct_false] at hok; simp at hok
    | true =>
      cases ok2 with
      | false => rw [construct_true_false] at hok; simp at hok
      | true =>
        rw [construct_true_true] at hok
        injection hok with hobj hh1
        subst hobj
        exact ⟨rfl, rfl⟩
  · intro obj h1 hab
    cases ok1 with
    | false =>
      rw [construct_false] at hab
      injection hab with hobj hh1
      subst hobj
      exact ⟨rfl, rfl⟩
    | true =>
      cases ok2 with
      | false =>
        rw [construct_true_false] at hab
        injection hab with hobj hh1
        subst hobj
        exact ⟨rfl, rfl⟩
      | true => rw [construct_true_true] at hab; simp at hab

/-- Witness for C7 at a concrete successful construction. -/
theorem position_stage_verbatim_and_frozen_witness :
    ObjTable.scip_position_ ⟨0, 1, 2, -7, 3⟩ = -7 ∧
    ObjTable.scip_earlieststage_ ⟨0, 1, 2, -7, 3⟩ = 3 :=
  (position_stage_verbatim_and_frozen ⟨1, [], []⟩ 0 5 6 (-7) 3
    true true).1 ⟨0, 1, 2, -7, 3⟩
    ⟨3, [(2, []), (1, [])], [MemEvent.alloc 1, MemEvent.alloc 2]⟩ rfl

/-- C8: registering a second object under an already-registered name
fails with the collision code, leaves the registry unchanged (the first
registration wins), and the original object remains findable by name. -/
theorem register_rejects_name_collision (h : Heap) (reg : Registry)
    (nm : List Char) (obj1 obj2 : ObjTable) (del ok : Bool)
    (hfound : SCIPfindObjTable reg nm = some obj1)
    (hname : (h.lookup obj2.scip_name_).getD [] = nm) :
    (SCIPincludeObjTable h reg obj2 del ok).1 = SCIP_RETCODE.invaliddata ∧
    (SCIPincludeObjTable h reg obj2 del ok).2 = reg ∧
    SCIPfindObjTable (SCIPincludeObjTable h reg obj2 del ok).2 nm =
      some obj1 := by
  have hany : reg.entries.any (fun e => e.name == nm) = true := by
    unfold SCIPfindObjTable at hfound
    cases hfind : reg.entries.find? (fun e => e.name == nm) with
    | none => rw [hfind] at hfound; simp at hfound
    | some e =>
      have hmem := List.mem_of_find?_eq_some hfind
      have hpe := List.find?_some hfind
      exact List.any_eq_true.mpr ⟨e, hmem, hpe⟩
  have hcall : SCIPincludeObjTable h reg obj2 del ok =
      (SCIP_RETCODE.invaliddata, reg) := by
    unfold SCIPincludeObjTable
    rw [hname]
    simp [hany]
  rw [hcall]
  exact ⟨rfl, rfl, hfound⟩

/-- Witness for C8 at a concrete one-entry registry. -/
theorem register_rejects_name_collision_witness :
    (SCIPincludeObjTable ⟨3, [(2, ['n'])], []⟩
        ⟨[⟨['n'], some ⟨0, 1, 0, 5, 3⟩, false⟩]⟩
        ⟨0, 2, 0, 6, 4⟩ true true).1 = SCIP_RETCODE.invaliddata ∧
    (SCIPincludeObjTable ⟨3, [(2, ['n'])], []⟩
        ⟨[⟨['n'], some ⟨0, 1, 0, 5, 3⟩, false⟩]⟩
        ⟨0, 2, 0, 6, 4⟩ true true).2 =
      ⟨[⟨['n'], some ⟨0, 1, 0, 5, 3⟩, false⟩]⟩ ∧
    SCIPfindObjTable
        (SCIPincludeObjTable ⟨3, [(2, ['n'])], []⟩
          ⟨[⟨['n'], some ⟨0, 1, 0, 5, 3⟩, false⟩]⟩
          ⟨0, 2, 0, 6, 4⟩ true true).2 ['n'] =
      some ⟨0, 1, 0, 5, 3⟩ :=
  register_rejects_name_collision ⟨3, [(2, ['n'])], []⟩
    ⟨[⟨['n'], some ⟨0, 1, 0, 5, 3⟩, false⟩]⟩ ['n']
    ⟨0, 1, 0, 5, 3⟩ ⟨0, 2, 0, 6, 4⟩ true true rfl rfl

/-- C9: a successful registration stores the object as the opaque user
data of the entry it creates, so SCIPgetObjTable on that entry returns
exactly the registered object; on an entry whose user data was not set
by this bridge it returns none. -/
theorem register_getobjtable_roundtrip (h : Heap) (reg : Registry)
    (obj : ObjTable) (del ok : Bool) (reg1 : Registry)
    (hok : SCIPincludeObjTable h reg obj del ok =
      (SCIP_RETCODE.okay, reg1)) :
    (∃ e, reg1.entries.getLast? = some e ∧
      SCIPgetObjTable e = some obj ∧ e.deleteobject = del) ∧
    (∀ e : TableEntry, e.tabledata = none → SCIPgetObjTable e = none) := by
  constructor
  · simp only [SCIPincludeObjTable] at hok
    split at hok
    · simp at hok
    · split at hok
      · injection hok with hrc hreg
        subst hreg
        exact ⟨_, List.getLast?_concat _, rfl, rfl⟩
      · simp at hok
  · intro e he
    unfold SCIPgetObjTable
    exact he

/-- Witness for C9 at a concrete successful registration. -/
theorem register_getobjtable_roundtrip_witness :
    (∃ e, (Registry.entries
        ⟨[⟨['n'], some ⟨0, 1, 0, 5, 3⟩, true⟩]⟩).getLast? = some e ∧
      SCIPgetObjTable e = some ⟨0, 1, 0, 5, 3⟩ ∧
      e.deleteobject = true) ∧
    (∀ e : TableEntry, e.tabledata = none → SCIPgetObjTable e = none) :=
  register_getobjtable_roundtrip ⟨2, [(1, ['n'])], []⟩ ⟨[]⟩
    ⟨0, 1, 0, 5, 3⟩ true true ⟨[⟨['n'], some ⟨0, 1, 0, 5, 3⟩, true⟩]⟩ rfl

end Spec2Proof
